import Mathlib

/-!
Shallow embedding of the `wry_cmd` command registry and dispatch protocol
(crates `wry_cmd_core` and `wry_cmd_macro`).

Strings that travel on the wire (URI authorities, paths, command names,
JSON bodies, error messages) are modelled as lists of bytes (`List Nat`,
each entry < 256), because the resolver pipeline in
`wry_cmd_core/src/lib.rs` operates on percent-encoded UTF-8 byte
sequences and percent-decoding can change character boundaries.
-/

namespace WryCmd

/-- UTF-8 encoding of a single character (the standard RFC 3629 scheme),
used to turn Lean string literals into the byte lists of the model. -/
def charBytes (c : Char) : List Nat :=
  let n := c.toNat
  if n < 0x80 then [n]
  else if n < 0x800 then [0xC0 + n / 0x40, 0x80 + n % 0x40]
  else if n < 0x10000 then
    [0xE0 + n / 0x1000, 0x80 + (n / 0x40) % 0x40, 0x80 + n % 0x40]
  else
    [0xF0 + n / 0x40000, 0x80 + (n / 0x1000) % 0x40,
     0x80 + (n / 0x40) % 0x40, 0x80 + n % 0x40]

/-- The UTF-8 bytes of a Lean string literal. -/
def bytes (s : String) : List Nat :=
  s.data.foldr (fun c acc => charBytes c ++ acc) []

/-- Value of an ASCII hex digit, as in `percent_encoding`'s
`char::from(b).to_digit(16)`: digits `0-9`, `A-F` and `a-f`. -/
def hexVal (b : Nat) : Option Nat :=
  if 48 ≤ b ∧ b ≤ 57 then some (b - 48)
  else if 65 ≤ b ∧ b ≤ 70 then some (b - 55)
  else if 97 ≤ b ∧ b ≤ 102 then some (b - 87)
  else none

/-- `percent_encoding::percent_decode_str`: a `%` followed by two hex
digits becomes the corresponding byte; a `%` not followed by two hex
digits is emitted literally and scanning resumes at the next byte. -/
def percentDecode : List Nat → List Nat
  | 37 :: h1 :: h2 :: rest =>
    match hexVal h1, hexVal h2 with
    | some x, some y => (16 * x + y) :: percentDecode rest
    | _, _ => 37 :: percentDecode (h1 :: h2 :: rest)
  | b :: rest => b :: percentDecode rest
  | [] => []

/-- A UTF-8 continuation byte (`0x80..=0xBF`). -/
def isCont (b : Nat) : Bool := 0x80 ≤ b && b < 0xC0

/-- UTF-8 validity of a byte sequence, as checked by Rust's
`str::from_utf8` (which backs `decode_utf8` in `handle_command`). -/
def isValidUtf8 : List Nat → Bool
  | [] => true
  | b :: rest =>
    if b < 0x80 then isValidUtf8 rest
    else if b < 0xC2 then false
    else if b < 0xE0 then
      match rest with
      | c1 :: rest' => isCont c1 && isValidUtf8 rest'
      | [] => false
    else if b < 0xF0 then
      match rest with
      | c1 :: c2 :: rest' =>
        (if b = 0xE0 then 0xA0 ≤ c1 && c1 < 0xC0
         else if b = 0xED then 0x80 ≤ c1 && c1 < 0xA0
         else isCont c1) && isCont c2 && isValidUtf8 rest'
      | _ => false
    else if b < 0xF5 then
      match rest with
      | c1 :: c2 :: c3 :: rest' =>
        (if b = 0xF0 then 0x90 ≤ c1 && c1 < 0xC0
         else if b = 0xF4 then 0x80 ≤ c1 && c1 < 0x90
         else isCont c1) && isCont c2 && isCont c3 && isValidUtf8 rest'
      | _ => false
    else false

/-- Drop trailing `/` bytes (the trailing half of `trim_matches('/')`). -/
def dropTrailingSlashes (l : List Nat) : List Nat :=
  (l.reverse.dropWhile (fun b => b == 47)).reverse

/-- `raw_cmd.trim_matches('/')`: strip all leading and trailing `/`.
On the valid-UTF-8 inputs `handle_command` receives, the char-level Rust
trim coincides with this byte-level trim since `/` is ASCII. -/
def trimSlashes (l : List Nat) : List Nat :=
  dropTrailingSlashes (l.dropWhile (fun b => b == 47))

/-- Steps 1-2 of `handle_command` (`wry_cmd_core/src/lib.rs:33-41`):
trim slashes, then percent-decode, keeping the trimmed (pre-decode)
string when the decoded bytes are not valid UTF-8. -/
def resolveName (raw : List Nat) : List Nat :=
  let cmd := trimSlashes raw
  let d := percentDecode cmd
  if isValidUtf8 d then d else cmd

/-- JSON values (`serde_json::Value`). Strings are UTF-8 byte lists;
numbers are modelled as integers (none of the dispatch logic inspects
numeric values). -/
inductive Json where
  | null : Json
  | bool (b : Bool) : Json
  | num (n : Int) : Json
  | str (s : List Nat) : Json
  | arr (xs : List Json) : Json
  | obj (fields : List (List Nat × Json)) : Json

/-- serde_json's escaping of one byte inside a JSON string literal:
quote and backslash are escaped, control bytes below 0x20 get their
short escape or a lowercase `\u00XX` escape, all other bytes pass
through verbatim. -/
def escapeByte (b : Nat) : List Nat :=
  if b = 34 then [92, 34]
  else if b = 92 then [92, 92]
  else if b = 8 then [92, 98]
  else if b = 9 then [92, 116]
  else if b = 10 then [92, 110]
  else if b = 12 then [92, 102]
  else if b = 13 then [92, 114]
  else if b < 32 then
    [92, 117, 48, 48,
     (if b / 16 < 10 then 48 + b / 16 else 87 + b / 16),
     (if b % 16 < 10 then 48 + b % 16 else 87 + b % 16)]
  else [b]

/-- A JSON string literal: quote, escaped content bytes, quote. -/
def quoteStr (s : List Nat) : List Nat :=
  34 :: s.foldr (fun b acc => escapeByte b ++ acc) [] ++ [34]

mutual

/-- serde_json serialization of a value to bytes (`serde_json::to_vec`
on a `Value` — which always succeeds, see `jsonToVec`). -/
def jsonSerialize : Json → List Nat
  | .null => bytes "null"
  | .bool true => bytes "true"
  | .bool false => bytes "false"
  | .num n => bytes (toString n)
  | .str s => quoteStr s
  | .arr xs => 91 :: serializeArr xs ++ [93]
  | .obj fs => 123 :: serializeObj fs ++ [125]

/-- Comma-separated serialization of array elements. -/
def serializeArr : List Json → List Nat
  | [] => []
  | [x] => jsonSerialize x
  | x :: xs => jsonSerialize x ++ 44 :: serializeArr xs

/-- Comma-separated serialization of object fields (`"key":value`). -/
def serializeObj : List (List Nat × Json) → List Nat
  | [] => []
  | [(k, v)] => quoteStr k ++ 58 :: jsonSerialize v
  | (k, v) :: fs => quoteStr k ++ 58 :: jsonSerialize v ++ 44 :: serializeObj fs

end

/-- `serde_json::to_vec(&value)`: serialization of a `serde_json::Value`
cannot fail (its keys are strings and its numbers are finite), so this
always returns `some`; the transport still applies `unwrap_or_default`
to the result (see `use_wry_cmd_protocol`). -/
def jsonToVec (v : Json) : Option (List Nat) :=
  some (jsonSerialize v)

/-- A registered command (`wry_cmd_core::Command`): a static name and a
handler from JSON arguments to a result of JSON or an error string.
The handler's `BoxFuture` is collapsed, since the transport immediately
`block_on`s it: both execution shapes land in the same `Except`. -/
structure Command where
  name : List Nat
  handler : Json → Except (List Nat) Json

/-- The registry scan in `handle_command` (`for cmd_def in
inventory::iter::<Command>` with `cmd_def.name == cmd`): first entry in
iteration order whose name equals `n` exactly. -/
def lookup (reg : List Command) (n : List Nat) : Option Command :=
  reg.find? (fun c => c.name == n)

/-- `wry_cmd_core::handle_command`: normalize the raw name
(`resolveName`), then return the first matching handler's result, or
`Err("Unknown command: " + cmd)` on a lookup miss. -/
def handle_command (reg : List Command) (raw : List Nat) (args : Json) :
    Except (List Nat) Json :=
  let cmd := resolveName raw
  match lookup reg cmd with
  | some c => c.handler args
  | none => .error (bytes "Unknown command: " ++ cmd)

/-- The parts of `wry::http::Uri` the transport reads: `uri.authority()`
and `uri.path_and_query().map(|pq| pq.path())` (the path component with
the query already stripped), both still percent-encoded. -/
structure Uri where
  authority : Option (List Nat)
  path : Option (List Nat)

/-- An inbound pseudo-HTTP request (`wry::http::Request<Vec<u8>>`). -/
structure Request where
  method : String
  uri : Uri
  body : List Nat

/-- The response handed to `responder.respond`. -/
structure Response where
  status : Nat
  headers : List (String × String)
  body : List Nat

/-- The OPTIONS preflight response built at
`wry_cmd_core/src/lib.rs:76-86`. -/
def corsPreflightResponse : Response :=
  ⟨204,
   [("Access-Control-Allow-Origin", "*"),
    ("Access-Control-Allow-Methods", "POST, OPTIONS"),
    ("Access-Control-Allow-Headers", "Content-Type")],
   []⟩

/-- The 405 response built at `wry_cmd_core/src/lib.rs:88-98`. -/
def methodNotAllowedResponse : Response :=
  ⟨405,
   [("Allow", "POST, OPTIONS"),
    ("Access-Control-Allow-Origin", "*")],
   bytes "Method Not Allowed"⟩

/-- Command-name extraction from the URI
(`wry_cmd_core/src/lib.rs:100-121`): host is the authority or empty,
the path loses all leading slashes (`trim_start_matches('/')`), and the
two are joined with `/` when both are non-empty. -/
def extractCmd (uri : Uri) : List Nat :=
  let host := uri.authority.getD []
  let path := (uri.path.getD []).dropWhile (fun b => b == 47)
  if host.isEmpty then path
  else if path.isEmpty then host
  else host ++ 47 :: path

/-- The result envelope (`wry_cmd_core/src/lib.rs:134-137`): a success
value is passed through verbatim, an error string `e` becomes the JSON
object with the single field `"error": e`. -/
def envelope : Except (List Nat) Json → Json
  | .ok v => v
  | .error e => Json.obj [(bytes "error", Json.str e)]

/-- The request handler produced by `use_wry_cmd_protocol!`
(`wry_cmd_core/src/lib.rs:62-153`), as a function from request to the
single response handed to the responder. `parse` stands for
`serde_json::from_slice` on the body (an external crate), kept as a
parameter; a parse failure is replaced by `Value::default()`, i.e.
`Json.null`. The background thread and `block_on` are collapsed into
direct evaluation. -/
def use_wry_cmd_protocol (reg : List Command)
    (parse : List Nat → Option Json) (req : Request) : Response :=
  if req.method = "OPTIONS" then
    corsPreflightResponse
  else if req.method ≠ "POST" then
    methodNotAllowedResponse
  else
    let cmd := extractCmd req.uri
    let args := (parse req.body).getD Json.null
    let responseValue := envelope (handle_command reg cmd args)
    let body := (jsonToVec responseValue).getD []
    ⟨200,
     [("Content-Type", "application/json"),
      ("Access-Control-Allow-Origin", "*")],
     body⟩

/-- The handler wrapper emitted by `#[command]` for a function with one
argument (`wry_cmd_macro/src/lib.rs:96-124`): decode the JSON argument
(`serde_json::from_value`, here `fromValue`), on decode failure return
the error's description; otherwise call the user function and serialize
its return value (`serde_json::to_value`, here `toValue`), turning a
serialization failure into `Err` of its description. The async and sync
expansions differ only in an `.await`, which the embedding collapses. -/
def commandWrapper {A R : Type} (fromValue : Json → Except (List Nat) A)
    (f : A → R) (toValue : R → Except (List Nat) Json) :
    Json → Except (List Nat) Json :=
  fun args =>
    match fromValue args with
    | .error e => .error e
    | .ok v => toValue (f v)

/-- The §4.2 resolver algorithm as the spec words it, for comparison
with the code's resolver: host = authority text or empty; path with
ONE leading `/` stripped (further leading slashes preserved at that
step); combine (`host + "/" + path` when both non-empty); trim leading
and trailing `/` from the combination; percent-decode best-effort. -/
def specResolve (authority : Option (List Nat)) (path : Option (List Nat)) :
    List Nat :=
  let host := authority.getD []
  let p :=
    match path.getD [] with
    | 47 :: rest => rest
    | p0 => p0
  let combined :=
    if host.isEmpty then p
    else if p.isEmpty then host
    else host ++ 47 :: p
  let trimmed := trimSlashes combined
  let d := percentDecode trimmed
  if isValidUtf8 d then d else trimmed

/-- The §4.2 algorithm with step 2 amended to strip ALL leading `/`
characters from the path (instead of just one), everything else as the
spec words it. -/
def specResolveAllSlashes (authority : Option (List Nat))
    (path : Option (List Nat)) : List Nat :=
  let host := authority.getD []
  let p := (path.getD []).dropWhile (fun b => b == 47)
  let combined :=
    if host.isEmpty then p
    else if p.isEmpty then host
    else host ++ 47 :: p
  let trimmed := trimSlashes combined
  let d := percentDecode trimmed
  if isValidUtf8 d then d else trimmed

/-- Test fixture: a `greet` command answering `1`. -/
def greetOne : Command := ⟨bytes "greet", fun _ => .ok (Json.num 1)⟩

/-- Test fixture: a second command also named `greet`, answering `2`. -/
def greetTwo : Command := ⟨bytes "greet", fun _ => .ok (Json.num 2)⟩

/-- Test fixture: a `greet` command answering the string `hi`. -/
def greetHi : Command := ⟨bytes "greet", fun _ => .ok (Json.str (bytes "hi"))⟩

/-- Percent-decoding a byte list that contains no `%` (byte 37) leaves
it unchanged. -/
theorem percentDecode_of_no_percent (l : List Nat) (h : 37 ∉ l) :
    percentDecode l = l := by
  induction l using percentDecode.induct with
  | case1 h1 h2 rest x y hx hy =>
    exact absurd (List.mem_cons_self 37 _) h
  | case2 h1 h2 rest hne ih =>
    exact absurd (List.mem_cons_self 37 _) h
  | case3 b rest hshape ih =>
    rw [percentDecode]
    · rw [ih fun hm => h (List.mem_cons_of_mem b hm)]
    · exact hshape
  | case4 => rfl

/-- `dropWhile` on the slash predicate is the identity when the head is
not a slash. -/
theorem dropWhile_slash_eq_self (l : List Nat) (h : l.head? ≠ some 47) :
    l.dropWhile (fun b => b == 47) = l := by
  cases l with
  | nil => rfl
  | cons a t =>
    have ha : a ≠ 47 := fun hh => h (by rw [hh]; rfl)
    have hb : (a == 47) = false := by simpa using ha
    simp [List.dropWhile, hb]

/-- `dropTrailingSlashes` is the identity when the last byte is not a
slash. -/
theorem dropTrailingSlashes_eq_self (l : List Nat)
    (h : l.getLast? ≠ some 47) : dropTrailingSlashes l = l := by
  unfold dropTrailingSlashes
  rw [dropWhile_slash_eq_self l.reverse (by rwa [List.head?_reverse]),
    List.reverse_reverse]

/-- `trimSlashes` is the identity on byte lists that neither start nor
end with a slash. -/
theorem trimSlashes_eq_self (l : List Nat) (h1 : l.head? ≠ some 47)
    (h2 : l.getLast? ≠ some 47) : trimSlashes l = l := by
  unfold trimSlashes
  rw [dropWhile_slash_eq_self l h1, dropTrailingSlashes_eq_self l h2]

/-- C1 counterexample: the code's resolver does not implement the §4.2
algorithm exactly. For authority `h` and path `//x` the spec algorithm
(one leading slash stripped from the path) yields `h//x`, while the
code (`trim_start_matches('/')` strips all leading slashes) yields
`h/x`. -/
theorem resolver_differs_from_spec_algorithm :
    resolveName (extractCmd ⟨some (bytes "h"), some (bytes "//x")⟩) ≠
      specResolve (some (bytes "h")) (some (bytes "//x")) := by
  decide

/-- C1 amended: for every URI (optional authority, optional path), the
code's resolver — `extractCmd` from `use_wry_cmd_protocol!` followed by
the normalization in `handle_command` — implements the §4.2 algorithm
with step 2 amended to strip ALL leading `/` characters from the path. -/
theorem resolver_implements_all_slash_spec (a p : Option (List Nat)) :
    resolveName (extractCmd ⟨a, p⟩) = specResolveAllSlashes a p := rfl

/-- Witness for the amended C1 theorem at the spec's own test vector:
authority `mycommands`, path `/greet/` resolves to `mycommands/greet`. -/
theorem resolver_implements_all_slash_spec_witness :
    resolveName (extractCmd ⟨some (bytes "mycommands"), some (bytes "/greet/")⟩) =
      specResolveAllSlashes (some (bytes "mycommands")) (some (bytes "/greet/")) ∧
    specResolveAllSlashes (some (bytes "mycommands")) (some (bytes "/greet/")) =
      bytes "mycommands/greet" :=
  ⟨resolver_implements_all_slash_spec (some (bytes "mycommands"))
    (some (bytes "/greet/")), by decide⟩

/-- C2 counterexample: name resolution is not idempotent. `%2F` resolves
to `/` (trimming happens before decoding), and `/` resolves to the empty
name. -/
theorem resolve_not_idempotent :
    resolveName (resolveName (bytes "%2F")) ≠ resolveName (bytes "%2F") := by
  decide

/-- C2 amended: name resolution is idempotent for every input whose
resolved name contains no `%` byte and neither starts nor ends with a
`/` byte. -/
theorem resolve_idempotent_of_clean (u : List Nat)
    (h1 : (resolveName u).head? ≠ some 47)
    (h2 : (resolveName u).getLast? ≠ some 47)
    (h3 : 37 ∉ resolveName u) :
    resolveName (resolveName u) = resolveName u := by
  generalize hv : resolveName u = v at h1 h2 h3
  simp only [resolveName]
  rw [trimSlashes_eq_self v h1 h2, percentDecode_of_no_percent v h3, ite_self]

/-- Witness for the amended C2 theorem at the input `greet`. -/
theorem resolve_idempotent_of_clean_witness :
    resolveName (resolveName (bytes "greet")) = resolveName (bytes "greet") :=
  resolve_idempotent_of_clean (bytes "greet") (by decide) (by decide) (by decide)

/-- C3: contrary to the spec (and to `handle_command`'s own doc comment,
which says percent-encoded names are supported), the input `%2Fgreet`
resolves to `/greet`, not `greet`: `handle_command` trims slashes before
percent-decoding, so the decoded leading slash survives. -/
theorem percent_encoded_slash_survives :
    resolveName (bytes "%2Fgreet") = bytes "/greet" ∧
    resolveName (bytes "%2Fgreet") ≠ bytes "greet" := by
  decide

/-- C7: an OPTIONS request, whatever its URI, body, registry and body
parser, gets exactly the 204 preflight response with the three CORS
headers and an empty body; the resolver and dispatcher do not influence
the response. -/
theorem options_gets_preflight_response (reg : List Command)
    (parse : List Nat → Option Json) (req : Request)
    (hm : req.method = "OPTIONS") :
    use_wry_cmd_protocol reg parse req =
      ⟨204,
       [("Access-Control-Allow-Origin", "*"),
        ("Access-Control-Allow-Methods", "POST, OPTIONS"),
        ("Access-Control-Allow-Headers", "Content-Type")],
       []⟩ := by
  simp [use_wry_cmd_protocol, hm, corsPreflightResponse]

/-- Witness for the C7 theorem at a concrete OPTIONS request. -/
theorem options_gets_preflight_response_witness :
    use_wry_cmd_protocol [greetOne] (fun _ => none)
      ⟨"OPTIONS", ⟨some (bytes "greet"), none⟩, bytes "ignored"⟩ =
      ⟨204,
       [("Access-Control-Allow-Origin", "*"),
        ("Access-Control-Allow-Methods", "POST, OPTIONS"),
        ("Access-Control-Allow-Headers", "Content-Type")],
       []⟩ :=
  options_gets_preflight_response [greetOne] (fun _ => none)
    ⟨"OPTIONS", ⟨some (bytes "greet"), none⟩, bytes "ignored"⟩ rfl

/-- C8: a request whose method is neither POST nor OPTIONS, whatever its
URI, body, registry and body parser, gets exactly the 405 response with
headers `Allow: POST, OPTIONS` and `Access-Control-Allow-Origin: *` and
body `Method Not Allowed`; the resolver and dispatcher do not influence
the response. -/
theorem other_method_gets_405 (reg : List Command)
    (parse : List Nat → Option Json) (req : Request)
    (ho : req.method ≠ "OPTIONS") (hp : req.method ≠ "POST") :
    use_wry_cmd_protocol reg parse req =
      ⟨405,
       [("Allow", "POST, OPTIONS"),
        ("Access-Control-Allow-Origin", "*")],
       bytes "Method Not Allowed"⟩ := by
  simp [use_wry_cmd_protocol, ho, hp, methodNotAllowedResponse]

/-- Witness for the C8 theorem at a concrete GET request. -/
theorem other_method_gets_405_witness :
    use_wry_cmd_protocol [greetOne] (fun _ => none)
      ⟨"GET", ⟨some (bytes "greet"), none⟩, []⟩ =
      ⟨405,
       [("Allow", "POST, OPTIONS"),
        ("Access-Control-Allow-Origin", "*")],
       bytes "Method Not Allowed"⟩ :=
  other_method_gets_405 [greetOne] (fun _ => none)
    ⟨"GET", ⟨some (bytes "greet"), none⟩, []⟩ (by decide) (by decide)

/-- C4: on a POST whose resolved name has no registered command,
dispatch resolves to `Err("Unknown command: " + name)` and the response
is a 200 whose JSON body is the object `"error": "Unknown command: "
+ name`. -/
theorem unknown_command_yields_error_envelope (reg : List Command)
    (parse : List Nat → Option Json) (req : Request)
    (hm : req.method = "POST")
    (hmiss : lookup reg (resolveName (extractCmd req.uri)) = none) :
    handle_command reg (extractCmd req.uri) ((parse req.body).getD Json.null) =
      .error (bytes "Unknown command: " ++ resolveName (extractCmd req.uri)) ∧
    use_wry_cmd_protocol reg parse req =
      ⟨200,
       [("Content-Type", "application/json"),
        ("Access-Control-Allow-Origin", "*")],
       jsonSerialize (Json.obj [(bytes "error",
         Json.str (bytes "Unknown command: " ++ resolveName (extractCmd req.uri)))])⟩ := by
  have hh : handle_command reg (extractCmd req.uri) ((parse req.body).getD Json.null) =
      .error (bytes "Unknown command: " ++ resolveName (extractCmd req.uri)) := by
    simp only [handle_command, hmiss]
  refine ⟨hh, ?_⟩
  simp [use_wry_cmd_protocol, hm, hh, envelope, jsonToVec]

/-- Witness for the C4 theorem: with an empty registry, a POST to
`nope` gets a 200 whose body reads `"error": "Unknown command: nope"`. -/
theorem unknown_command_yields_error_envelope_witness :
    use_wry_cmd_protocol [] (fun _ => none)
      ⟨"POST", ⟨some (bytes "nope"), none⟩, []⟩ =
      ⟨200,
       [("Content-Type", "application/json"),
        ("Access-Control-Allow-Origin", "*")],
       bytes "\x7b\"error\":\"Unknown command: nope\"\x7d"⟩ := by
  have h := (unknown_command_yields_error_envelope [] (fun _ => none)
    ⟨"POST", ⟨some (bytes "nope"), none⟩, []⟩ rfl rfl).2
  rw [h]
  have hb : jsonSerialize (Json.obj [(bytes "error",
      Json.str (bytes "Unknown command: " ++
        resolveName (extractCmd ⟨some (bytes "nope"), none⟩)))]) =
      bytes "\x7b\"error\":\"Unknown command: nope\"\x7d" := by decide
  rw [hb]

/-- C5: the body of every POST response is either the serialization of
the handler's returned value verbatim, or the serialization of an
object with exactly one field `"error"` holding a string; the status is
always 200 with the JSON content-type and CORS headers. -/
theorem post_response_envelope_shape (reg : List Command)
    (parse : List Nat → Option Json) (req : Request)
    (hm : req.method = "POST") :
    ∃ body : List Nat,
      use_wry_cmd_protocol reg parse req =
        ⟨200,
         [("Content-Type", "application/json"),
          ("Access-Control-Allow-Origin", "*")], body⟩ ∧
      ((∃ v, handle_command reg (extractCmd req.uri)
            ((parse req.body).getD Json.null) = .ok v ∧
          body = jsonSerialize v) ∨
       (∃ e, body = jsonSerialize (Json.obj [(bytes "error", Json.str e)]))) := by
  cases hres : handle_command reg (extractCmd req.uri)
      ((parse req.body).getD Json.null) with
  | ok v =>
    refine ⟨jsonSerialize v, ?_, .inl ⟨v, rfl, rfl⟩⟩
    simp [use_wry_cmd_protocol, hm, hres, envelope, jsonToVec]
  | error e =>
    refine ⟨jsonSerialize (Json.obj [(bytes "error", Json.str e)]), ?_, .inr ⟨e, rfl⟩⟩
    simp [use_wry_cmd_protocol, hm, hres, envelope, jsonToVec]

/-- Witness for the C5 theorem at a concrete POST request. -/
theorem post_response_envelope_shape_witness :
    ∃ body : List Nat,
      use_wry_cmd_protocol [greetOne] (fun _ => none)
        ⟨"POST", ⟨some (bytes "greet"), none⟩, []⟩ =
        ⟨200,
         [("Content-Type", "application/json"),
          ("Access-Control-Allow-Origin", "*")], body⟩ ∧
      ((∃ v, handle_command [greetOne]
            (extractCmd ⟨some (bytes "greet"), none⟩) Json.null = .ok v ∧
          body = jsonSerialize v) ∨
       (∃ e, body = jsonSerialize (Json.obj [(bytes "error", Json.str e)]))) :=
  post_response_envelope_shape [greetOne] (fun _ => none)
    ⟨"POST", ⟨some (bytes "greet"), none⟩, []⟩ rfl

/-- C6: a POST whose body does not parse as JSON is not rejected: the
dispatch still happens, with the default value `null` substituted as
the handler argument, and its envelope is served with status 200. -/
theorem malformed_body_dispatches_null (reg : List Command)
    (parse : List Nat → Option Json) (req : Request)
    (hm : req.method = "POST") (hp : parse req.body = none) :
    use_wry_cmd_protocol reg parse req =
      ⟨200,
       [("Content-Type", "application/json"),
        ("Access-Control-Allow-Origin", "*")],
       jsonSerialize (envelope
         (handle_command reg (extractCmd req.uri) Json.null))⟩ := by
  simp [use_wry_cmd_protocol, hm, hp, jsonToVec]

/-- Witness for the C6 theorem: a POST to `greet` with a non-JSON body
still runs the `greet` handler and serves its result. -/
theorem malformed_body_dispatches_null_witness :
    use_wry_cmd_protocol [greetHi] (fun _ => none)
      ⟨"POST", ⟨some (bytes "greet"), none⟩, bytes "not json"⟩ =
      ⟨200,
       [("Content-Type", "application/json"),
        ("Access-Control-Allow-Origin", "*")],
       bytes "\"hi\""⟩ := by
  have h := malformed_body_dispatches_null [greetHi] (fun _ => none)
    ⟨"POST", ⟨some (bytes "greet"), none⟩, bytes "not json"⟩ rfl rfl
  rw [h]
  have hb : jsonSerialize (envelope (handle_command [greetHi]
      (extractCmd ⟨some (bytes "greet"), none⟩) Json.null)) = bytes "\"hi\"" := by
    decide
  rw [hb]

/-- C9: registry lookup is an exact match — every hit carries exactly
the requested name, a registry with no exactly-matching entry (in
particular one differing only in case) yields a miss — and with
duplicate names the first entry in registration/iteration order wins. -/
theorem lookup_exact_case_sensitive_first :
    (∀ (reg : List Command) (n : List Nat) (c : Command),
        lookup reg n = some c → c.name = n) ∧
    (∀ (reg : List Command) (n : List Nat),
        (∀ d ∈ reg, d.name ≠ n) → lookup reg n = none) ∧
    (∀ (pre post : List Command) (c : Command) (n : List Nat),
        (∀ d ∈ pre, d.name ≠ n) → c.name = n →
        lookup (pre ++ c :: post) n = some c) := by
  refine ⟨?_, ?_, ?_⟩
  · intro reg n c h
    simpa using List.find?_some h
  · intro reg n h
    rw [lookup, List.find?_eq_none]
    intro x hx
    simpa using h x hx
  · intro pre post c n hpre hc
    induction pre with
    | nil => simp [lookup, List.find?_cons, hc]
    | cons a pre ih =>
      have ha : (a.name == n) = false := by
        simpa using hpre a (List.mem_cons_self a pre)
      have hrest : ∀ d ∈ pre, d.name ≠ n := fun d hd =>
        hpre d (List.mem_cons_of_mem a hd)
      have hih := ih hrest
      rw [lookup] at hih ⊢
      rw [List.cons_append, List.find?_cons, ha]
      exact hih

/-- Witness for the C9 theorem: of two commands both registered as
`greet`, lookup returns the first, and looking up `Greet` (different
case) misses. -/
theorem lookup_exact_case_sensitive_first_witness :
    lookup [greetOne, greetTwo] (bytes "greet") = some greetOne ∧
    lookup [greetOne, greetTwo] (bytes "Greet") = none := by
  constructor
  · exact lookup_exact_case_sensitive_first.2.2 [] [greetTwo] greetOne
      (bytes "greet") (by simp) rfl
  · refine lookup_exact_case_sensitive_first.2.1 [greetOne, greetTwo]
      (bytes "Greet") ?_
    intro d hd
    rcases List.mem_cons.mp hd with h | h
    · subst h; decide
    · rcases List.mem_cons.mp h with h' | h'
      · subst h'; decide
      · exact absurd h' (List.not_mem_nil d)

/-- C10: when a handler generated by `#[command]` returns a value whose
serialization to JSON fails, the wrapper turns the failure into `Err`
of its description, so the POST response is a 200 whose body is the
serialized `"error"` object — a non-empty body, not the empty-buffer
fallback reserved for response-encode failures. -/
theorem serialize_failure_becomes_error_json
    {A R : Type} (fromValue : Json → Except (List Nat) A)
    (f : A → R) (toValue : R → Except (List Nat) Json)
    (name : List Nat) (parse : List Nat → Option Json) (req : Request)
    (v : A) (d : List Nat)
    (hm : req.method = "POST")
    (hn : resolveName (extractCmd req.uri) = name)
    (hv : fromValue ((parse req.body).getD Json.null) = .ok v)
    (hd : toValue (f v) = .error d) :
    commandWrapper fromValue f toValue ((parse req.body).getD Json.null) =
      .error d ∧
    use_wry_cmd_protocol [⟨name, commandWrapper fromValue f toValue⟩] parse req =
      ⟨200,
       [("Content-Type", "application/json"),
        ("Access-Control-Allow-Origin", "*")],
       jsonSerialize (Json.obj [(bytes "error", Json.str d)])⟩ ∧
    jsonSerialize (Json.obj [(bytes "error", Json.str d)]) ≠ [] := by
  have hw : commandWrapper fromValue f toValue ((parse req.body).getD Json.null) =
      .error d := by
    simp [commandWrapper, hv, hd]
  refine ⟨hw, ?_, by simp [jsonSerialize]⟩
  have hh : handle_command [⟨name, commandWrapper fromValue f toValue⟩]
      (extractCmd req.uri) ((parse req.body).getD Json.null) = .error d := by
    simp only [handle_command, hn, lookup, List.find?_cons, beq_self_eq_true]
    exact hw
  simp [use_wry_cmd_protocol, hm, hh, envelope, jsonToVec]

/-- Witness for the C10 theorem: a command `c` whose serialization step
always fails with `oops` answers a POST with the `"error": "oops"`
body. -/
theorem serialize_failure_becomes_error_json_witness :
    use_wry_cmd_protocol
      [⟨bytes "c", commandWrapper (fun j => Except.ok j) (fun j => j)
          (fun _ => Except.error (bytes "oops"))⟩]
      (fun _ => none) ⟨"POST", ⟨some (bytes "c"), none⟩, []⟩ =
      ⟨200,
       [("Content-Type", "application/json"),
        ("Access-Control-Allow-Origin", "*")],
       bytes "\x7b\"error\":\"oops\"\x7d"⟩ := by
  have h := (serialize_failure_becomes_error_json
    (fun j => Except.ok j) (fun j => j) (fun _ => Except.error (bytes "oops"))
    (bytes "c") (fun _ => none) ⟨"POST", ⟨some (bytes "c"), none⟩, []⟩
    Json.null (bytes "oops") rfl (by decide) rfl rfl).2.1
  rw [h]
  have hb : jsonSerialize (Json.obj [(bytes "error", Json.str (bytes "oops"))]) =
      bytes "\x7b\"error\":\"oops\"\x7d" := by decide
  rw [hb]

end WryCmd
